import Mathlib

/-
Verification of the request-decoding engine of owenrumney/lmdrouter
(src/decoder.go) against its natural-language specification.

The Go source is shallowly embedded below: maps are association lists,
machine integers are Int/Nat with explicit two-complement wrapping where
reflect.Value.SetInt/SetUint truncate, fallible operations return
Except/Option, and a Go panic is a distinct outcome constructor.
Definitions follow the source function by function; Go standard-library
routines used by the source (strconv parsing, strings.Split,
base64 decoding, time.Parse, encoding/json) are modelled by executable
Lean functions whose doc comments state exactly what is modelled.
-/

namespace Lmd

/-- Models strings.ToLower restricted to ASCII case folding, which is all
the decoder's inputs exercise (Char.toLower lowers only ASCII letters). -/
def goToLower (s : String) : String := String.mk (s.data.map Char.toLower)

/-- True when the second character list is an initial segment of the first. -/
def charsStart : List Char → List Char → Bool
  | _, [] => true
  | [], _ :: _ => false
  | c :: cs, p :: ps => c = p && charsStart cs ps

/-- True when the second character list occurs contiguously inside the first. -/
def charsHas : List Char → List Char → Bool
  | [], pat => pat.isEmpty
  | c :: cs, pat => charsStart (c :: cs) pat || charsHas cs pat

/-- Models MatchString of the Go regular expression from src/decoder.go line 20:
`^1|true|on|enabled$`.  Go alternation binds loosest, so the four
alternatives are `^1`, `true`, `on` and `enabled$`, and MatchString
searches for a match anywhere in the text: the text matches when it
starts with "1", contains "true", contains "on", or ends with "enabled". -/
def boolRegexMatch (s : String) : Bool :=
  charsStart s.data ['1'] ||
  charsHas s.data ('t' :: 'r' :: 'u' :: 'e' :: []) ||
  charsHas s.data ('o' :: 'n' :: []) ||
  charsStart s.data.reverse ('e' :: 'n' :: 'a' :: 'b' :: 'l' :: 'e' :: 'd' :: []).reverse

/-- Models strings.Split for a one-character separator, the only form the
decoder uses (it always splits on "."). -/
def goSplitCAux (sep : Char) : List Char → List Char → List String
  | [], acc => [String.mk acc.reverse]
  | c :: rest, acc =>
    if c = sep then String.mk acc.reverse :: goSplitCAux sep rest []
    else goSplitCAux sep rest (c :: acc)

/-- Split a string on every occurrence of the separator character,
as strings.Split does. -/
def goSplitC (sep : Char) (s : String) : List String := goSplitCAux sep s.data []

def isDigitCh (c : Char) : Bool := '0' ≤ c && c ≤ '9'

def digitsToNatAux : List Char → Nat → Option Nat
  | [], acc => some acc
  | c :: cs, acc =>
    if isDigitCh c then digitsToNatAux cs (acc * 10 + (c.toNat - 48)) else none

/-- Value of a nonempty all-digit character list in base 10. -/
def digitsToNat : List Char → Option Nat
  | [] => none
  | cs => digitsToNatAux cs 0

/-- Models strconv.ParseInt(s, 10, 64): an optional single sign followed by
at least one decimal digit (base 10 admits no underscores), rejected when
the value does not fit a signed 64-bit integer (Go reports ErrRange). -/
def strconvParseInt64 (s : String) : Option Int :=
  match s.data with
  | '+' :: rest =>
    match digitsToNat rest with
    | some n => if n ≤ 2 ^ 63 - 1 then some (n : Int) else none
    | none => none
  | '-' :: rest =>
    match digitsToNat rest with
    | some n => if n ≤ 2 ^ 63 then some (-(n : Int)) else none
    | none => none
  | cs =>
    match digitsToNat cs with
    | some n => if n ≤ 2 ^ 63 - 1 then some (n : Int) else none
    | none => none

/-- Models strconv.ParseUint(s, 10, 64): at least one decimal digit, no
sign permitted, rejected when the value exceeds 2^64 - 1. -/
def strconvParseUint64 (s : String) : Option Nat :=
  match digitsToNat s.data with
  | some n => if n ≤ 2 ^ 64 - 1 then some n else none
  | none => none

def spanDigits : List Char → Nat × List Char
  | [] => (0, [])
  | c :: rest =>
    if isDigitCh c then
      let (n, r) := spanDigits rest
      (n + 1, r)
    else (0, c :: rest)

def allDigitsNonempty (cs : List Char) : Bool :=
  !cs.isEmpty && cs.all isDigitCh

def floatExpOk : List Char → Bool
  | [] => true
  | c :: rest =>
    if c = 'e' || c = 'E' then
      match rest with
      | s :: r2 => if s = '+' || s = '-' then allDigitsNonempty r2 else allDigitsNonempty rest
      | [] => false
    else false

def floatMantOk (cs : List Char) : Bool :=
  let (n1, r1) := spanDigits cs
  match r1 with
  | '.' :: r2 =>
    let (n2, r3) := spanDigits r2
    decide (0 < n1 + n2) && floatExpOk r3
  | r1 => decide (0 < n1) && floatExpOk r1

def stripSign : List Char → List Char
  | '+' :: rest => rest
  | '-' :: rest => rest
  | cs => cs

/-- Models the acceptance of strconv.ParseFloat(s, 64): an optional sign,
then either a decimal mantissa with optional fraction and exponent, or one
of the special words inf / infinity / nan (case-insensitively).  Go's
hexadecimal float literals and digit-group underscores are not modelled;
no theorem below depends on float parsing (the decoder's float branch is
only ever exercised on an absent key by the claims). -/
def strconvParseFloatOk (s : String) : Bool :=
  let cs := stripSign s.data
  let low := cs.map Char.toLower
  low = ('i' :: 'n' :: 'f' :: []) ||
  low = ('i' :: 'n' :: 'f' :: 'i' :: 'n' :: 'i' :: 't' :: 'y' :: []) ||
  low = ('n' :: 'a' :: 'n' :: []) ||
  floatMantOk cs

/-- A Go float64 value as far as the decoder observes it: the zero value
(taken on an absent key) or the result of parsing a given literal.  The
binder never computes with float values, so no arithmetic is modelled. -/
inductive GoFloat
  | zero
  | parsed (s : String)
deriving DecidableEq

def twoDigits (a b : Char) : Option Nat :=
  if isDigitCh a && isDigitCh b then some ((a.toNat - 48) * 10 + (b.toNat - 48)) else none

def leapYear (y : Nat) : Bool := y % 4 = 0 && (y % 100 ≠ 0 || y % 400 = 0)

def daysInMonth (m y : Nat) : Nat :=
  if m = 2 then (if leapYear y then 29 else 28)
  else if m = 4 || m = 6 || m = 9 || m = 11 then 30
  else 31

def tzOk : List Char → Bool
  | ['Z'] => true
  | [c, h1, h2, ':', m1, m2] =>
    (c = '+' || c = '-') &&
      (match twoDigits h1 h2, twoDigits m1 m2 with
       | some hh, some mm => hh ≤ 23 && mm ≤ 59
       | _, _ => false)
  | _ => false

def fracTzOk : List Char → Bool
  | '.' :: rest =>
    let (n, r) := spanDigits rest
    decide (0 < n) && tzOk r
  | rest => tzOk rest

/-- Models the acceptance of time.Parse(time.RFC3339, s): the strict
`YYYY-MM-DDTHH:MM:SS` shape with optional fractional seconds and a `Z` or
`±HH:MM` offset, with month, calendar day (leap years included), hour,
minute, second and offset fields range-checked as Go's RFC 3339 fast path
does.  The parsed instant itself is not needed: the decoder only stores
it, so the validated text stands for the value. -/
def rfc3339Ok (s : String) : Bool :=
  match s.data with
  | y1 :: y2 :: y3 :: y4 :: '-' :: mo1 :: mo2 :: '-' :: d1 :: d2 :: 'T' ::
      h1 :: h2 :: ':' :: mi1 :: mi2 :: ':' :: s1 :: s2 :: rest =>
    (match twoDigits y1 y2, twoDigits y3 y4, twoDigits mo1 mo2, twoDigits d1 d2,
           twoDigits h1 h2, twoDigits mi1 mi2, twoDigits s1 s2 with
     | some yh, some yl, some mo, some dd, some hh, some mi, some ss =>
       1 ≤ mo && mo ≤ 12 && 1 ≤ dd && dd ≤ daysInMonth mo (yh * 100 + yl) &&
       hh ≤ 23 && mi ≤ 59 && ss ≤ 59
     | _, _, _, _, _, _, _ => false) && fracTzOk rest
  | _ => false

/-- Base64 value of one character of the standard alphabet. -/
def b64Val (c : Char) : Option Nat :=
  if 'A' ≤ c && c ≤ 'Z' then some (c.toNat - 65)
  else if 'a' ≤ c && c ≤ 'z' then some (c.toNat - 71)
  else if isDigitCh c then some (c.toNat + 4)
  else if c = '+' then some 62
  else if c = '/' then some 63
  else none

def b64ErrAt (p : Nat) : String := "illegal base64 data at input byte " ++ Nat.repr p

/-- Quantum-wise decoding loop of base64.StdEncoding.DecodeString over the
character list with its running position.  An illegal character is
reported at its own position as Go does; the offsets Go reports for
truncated-but-otherwise-valid input differ in detail and are not relied
on by any theorem. -/
def b64Aux : List Char → Nat → Except String (List Nat)
  | [], _ => .ok []
  | c1 :: rest1, p =>
    match b64Val c1 with
    | none => .error (b64ErrAt p)
    | some v1 =>
      match rest1 with
      | [] => .error (b64ErrAt (p + 1))
      | c2 :: rest2 =>
        match b64Val c2 with
        | none => .error (b64ErrAt (p + 1))
        | some v2 =>
          match rest2 with
          | [] => .error (b64ErrAt (p + 2))
          | c3 :: rest3 =>
            if c3 = '=' then
              match rest3 with
              | ['='] => .ok [v1 * 4 + v2 / 16]
              | _ => .error (b64ErrAt (p + 3))
            else
              match b64Val c3 with
              | none => .error (b64ErrAt (p + 2))
              | some v3 =>
                match rest3 with
                | [] => .error (b64ErrAt (p + 3))
                | c4 :: rest4 =>
                  if c4 = '=' then
                    match rest4 with
                    | [] => .ok [v1 * 4 + v2 / 16, (v2 % 16) * 16 + v3 / 4]
                    | _ => .error (b64ErrAt (p + 4))
                  else
                    match b64Val c4 with
                    | none => .error (b64ErrAt (p + 3))
                    | some v4 =>
                      match b64Aux rest4 (p + 4) with
                      | .ok bs =>
                        .ok ([v1 * 4 + v2 / 16, (v2 % 16) * 16 + v3 / 4,
                              (v3 % 4) * 64 + v4] ++ bs)
                      | .error e => .error e

/-- Models base64.StdEncoding.DecodeString: carriage returns and newlines
are skipped (Go's decoder ignores them); positions in error messages then
count the remaining characters, which for the newline-free inputs of the
theorems coincides with Go's byte offsets. -/
def base64DecodeString (s : String) : Except String (List Nat) :=
  b64Aux (s.data.filter fun c => !(c = '\r' || c = '\n')) 0

/-- Byte view of a Go string; code points stand for bytes, which agrees
with UTF-8 on the ASCII inputs the theorems use. -/
def strBytes (s : String) : List Nat := s.data.map Char.toNat

def isWSByte (b : Nat) : Bool := b = 32 || b = 9 || b = 10 || b = 13

def jsonBalanced : Nat → List Nat → Bool
  | d, [] => d = 0
  | d, b :: rest =>
    if b = 123 || b = 91 then jsonBalanced (d + 1) rest
    else if b = 125 || b = 93 then
      match d with
      | 0 => false
      | d' + 1 => jsonBalanced d' rest
    else jsonBalanced d rest

/-- Models encoding/json's syntax validation (json.checkValid) coarsely:
the payload must contain a non-whitespace byte and its object and array
delimiters must balance.  Only two facts about encoding/json are relied
on by any theorem below: syntax checking runs before the unmarshal-target
check, and json.Unmarshal always fails on a target that is not a non-nil
pointer; the precise acceptance of Go's JSON grammar is immaterial. -/
def jsonSyntaxOk (bytes : List Nat) : Bool :=
  (bytes.any fun b => !isWSByte b) && jsonBalanced 0 bytes

/-- Message of json.InvalidUnmarshalError; the real message names the
concrete Go type, which the embedding does not track. -/
def jsonInvalidTargetMsg : String := "json: Unmarshal(non-pointer or nil)"

/-- Message of a JSON syntax error; the real message names the offending
byte, which no theorem inspects. -/
def jsonSyntaxErrMsg : String := "unexpected end of JSON input"

/-- Models the error behavior of encoding/json.Unmarshal(bytes, target):
a syntax error when the bytes are not valid JSON (json.Unmarshal runs
checkValid before looking at the target), otherwise an
InvalidUnmarshalError when the target is not a non-nil pointer, otherwise
success.  Structural mismatches between valid JSON and the target's shape
are not modelled; no theorem depends on that branch. -/
def jsonUnmarshalErr (bytes : List Nat) (targetIsPtr : Bool) : Option String :=
  if !jsonSyntaxOk bytes then some jsonSyntaxErrMsg
  else if !targetIsPtr then some jsonInvalidTargetMsg
  else none

/-- Widths of Go's signed and unsigned integer kinds.  Plain int and uint
are 64 bits on the platforms AWS Lambda runs Go on and behave exactly
like int64/uint64 everywhere in the decoder, so both share w64. -/
inductive IntWidth
  | w8
  | w16
  | w32
  | w64
deriving DecidableEq

def IntWidth.bits : IntWidth → Nat
  | .w8 => 8
  | .w16 => 16
  | .w32 => 32
  | .w64 => 64

inductive FloatW
  | f32
  | f64
deriving DecidableEq

/-- The reflect.Kind structure of a destination field's type as the
decoder dispatches on it: the scalar kinds, pointers, slices, the one
recognized struct type time.Time, and any other struct type. -/
inductive GoType
  | string
  | int (w : IntWidth)
  | uint (w : IntWidth)
  | float (w : FloatW)
  | bool
  | ptr (elem : GoType)
  | slice (elem : GoType)
  | timeStruct
  | otherStruct
deriving DecidableEq

/-- A reflect.Value of a destination field.  A pointer value is nil
(none) or points at a value; a time value records the RFC 3339 text it
was parsed from (the decoder only ever stores parsed instants). -/
inductive GoValue
  | str (s : String)
  | int (n : Int)
  | uint (n : Nat)
  | float (f : GoFloat)
  | bool (b : Bool)
  | ptr (v : Option GoValue)
  | slice (elems : List GoValue)
  | time (rfc : String)
  | other

/-- The zero reflect.Value of each type, as reflect.MakeSlice and Go
struct initialization produce it. -/
def zeroValue : GoType → GoValue
  | .string => .str ""
  | .int _ => .int 0
  | .uint _ => .uint 0
  | .float _ => .float .zero
  | .bool => .bool false
  | .ptr _ => .ptr none
  | .slice _ => .slice []
  | .timeStruct => .time ""
  | .otherStruct => .other

/-- Two-complement truncation performed by reflect.Value.SetInt on a field
narrower than 64 bits: the int64 is converted by Go's integer conversion,
which keeps the low bits (SetInt performs no overflow check). -/
def wrapInt (w : IntWidth) (x : Int) : Int :=
  (x + 2 ^ (w.bits - 1)) % (2 ^ w.bits : Int) - 2 ^ (w.bits - 1)

/-- Truncation performed by reflect.Value.SetUint on a narrow field. -/
def wrapUint (w : IntWidth) (x : Nat) : Nat := x % 2 ^ w.bits

/-- The HTTPError type of this repository (defined outside src/decoder.go,
used by it): a status code with a human-readable message. -/
structure HTTPError where
  Code : Nat
  Message : String
deriving DecidableEq

def statusBadRequest : Nat := 400

/-- An error value as the decoder produces them: either a structured
HTTPError carrying a status classification, or a plain unclassified error
built with errors.New / fmt.Errorf. -/
inductive GoError
  | http (e : HTTPError)
  | plain (msg : String)
deriving DecidableEq

/-- Outcome of running a piece of the decoder: a result, a returned
error, or a Go runtime panic (which returns nothing at all). -/
inductive Outcome (α : Type)
  | ok (a : α)
  | err (e : GoError)
  | panicked (msg : String)

/-- A single-valued parameter map (map[string]string); a nil Go map is the
empty list. -/
def SMap : Type := List (String × String)

/-- A multi-valued parameter map (map[string][]string). -/
def MMap : Type := List (String × List String)

def lookupS : List (String × String) → String → Option String
  | [], _ => none
  | (k, v) :: rest, key => if k = key then some v else lookupS rest key

def lookupM : List (String × List String) → String → Option (List String)
  | [], _ => none
  | (k, v) :: rest, key => if k = key then some v else lookupM rest key

/-- Go's comma-ok map read `str, ok := params[param]`: the value and a
presence flag, the value being the zero string when absent. -/
def mapGet2 (m : SMap) (k : String) : String × Bool :=
  match lookupS m k with
  | some v => (v, true)
  | none => ("", false)

/-- parseInt64Param from src/decoder.go lines 223-237. -/
def parseInt64Param (param str : String) (ok : Bool) : Except GoError Int :=
  if !ok then .ok 0
  else
    match strconvParseInt64 str with
    | some v => .ok v
    | none =>
      .error (.http ⟨statusBadRequest, param ++ " must be a valid integer"⟩)

/-- parseUint64Param from src/decoder.go lines 239-253. -/
def parseUint64Param (param str : String) (ok : Bool) : Except GoError Nat :=
  if !ok then .ok 0
  else
    match strconvParseUint64 str with
    | some v => .ok v
    | none =>
      .error (.http ⟨statusBadRequest, param ++ " must be a valid, positive integer"⟩)

/-- parseFloat64Param from src/decoder.go lines 255-269. -/
def parseFloat64Param (param str : String) (ok : Bool) : Except GoError GoFloat
  :=
  if !ok then .ok .zero
  else if strconvParseFloatOk str then .ok (.parsed str)
  else .error (.http ⟨statusBadRequest, param ++ " must be a valid floating point number"⟩)

/-- Message of the reflect.Value.Convert panic raised when the decoder's
pointer branch converts the *string it built to a pointer field whose
element type is not a string kind; the real message names the concrete
types. -/
def convertPanicMsg : String :=
  "reflect.Value.Convert: value of type *string cannot be converted"

/-- Message of the time.ParseError returned when an optional time.Time
field's text fails RFC 3339 parsing; the real message embeds the text. -/
def timeParseErrMsg (val : String) : String :=
  "parsing time " ++ val ++ " as RFC3339: cannot parse"

/-- The element loop of the decoder's slice branch: each raw text value is
fed back through the given field binder under the literal key "param" in
a fresh single-valued map, exactly as src/decoder.go lines 203-214 do;
the first error or panic aborts the loop. -/
def bindElems (g : GoValue → SMap → MMap → String → Outcome GoValue)
    (z : GoValue) : List String → Outcome (List GoValue)
  | [] => .ok []
  | s :: rest =>
    match g z [("param", s)] [] "param" with
    | .ok v =>
      match bindElems g z rest with
      | .ok vs => .ok (v :: vs)
      | .err e => .err e
      | .panicked m => .panicked m
    | .err e => .err e
    | .panicked m => .panicked m

/-- unmarshalField from src/decoder.go lines 145-221, returning the
field's new value (the source mutates valueField in place).  The pointer
branch mirrors the source's inner switch: reflect.Value.Convert of the
built *string succeeds only for string-kind element types and panics for
the int/float kinds the case also lists (pointer conversion requires
identical underlying element types); Int8/Int16, unsigned, and non-time
struct element kinds fall outside every case and leave the field
untouched. -/
def unmarshalField (t : GoType) (v : GoValue) (params : SMap) (multi : MMap)
    (param : String) : Outcome GoValue :=
  match t with
  | .string => .ok (.str (mapGet2 params param).1)
  | .int w =>
    match parseInt64Param param (mapGet2 params param).1 (mapGet2 params param).2 with
    | .ok value => .ok (.int (wrapInt w value))
    | .error e => .err e
  | .uint w =>
    match parseUint64Param param (mapGet2 params param).1 (mapGet2 params param).2 with
    | .ok value => .ok (.uint (wrapUint w value))
    | .error e => .err e
  | .float _ =>
    match parseFloat64Param param (mapGet2 params param).1 (mapGet2 params param).2 with
    | .ok value => .ok (.float value)
    | .error e => .err e
  | .bool => .ok (.bool (boolRegexMatch (goToLower (mapGet2 params param).1)))
  | .ptr elem =>
    match lookupS params param with
    | none => .ok v
    | some val =>
      match elem with
      | .int .w8 => .ok v
      | .int .w16 => .ok v
      | .int _ => .panicked convertPanicMsg
      | .string => .ok (.ptr (some (.str val)))
      | .float _ => .panicked convertPanicMsg
      | .timeStruct =>
        if rfc3339Ok val then .ok (.ptr (some (.time val)))
        else .err (.plain (timeParseErrMsg val))
      | .bool => .ok (.ptr (some (.bool (boolRegexMatch (goToLower val)))))
      | _ => .ok v
  | .slice elem =>
    match lookupM multi param with
    | none => .ok v
    | some strs =>
      match bindElems (unmarshalField elem) (zeroValue elem) strs with
      | .ok vs => .ok (.slice vs)
      | .err e => .err e
      | .panicked m => .panicked m
  | .timeStruct => .ok v
  | .otherStruct => .ok v

/-- One exported field of the destination struct: its Go field name, the
value of its `lambda` struct tag ("" when the tag is absent), its type
and its current value. -/
structure Field where
  name : String
  tag : String
  type : GoType
  value : GoValue

/-- The field loop of unmarshalEvent (src/decoder.go lines 73-116):
fields with an empty tag are skipped; the tag is split on '.'; anything
but exactly two components is the invalid-tag error; the source kind
selects the single- and multi-valued maps (path has no multi-valued map);
the first field error or panic aborts the loop. -/
def bindFields (req_q req_p req_h : SMap) (req_mq req_mh : MMap) :
    List Field → Outcome (List Field)
  | [] => .ok []
  | f :: rest =>
    if f.tag = "" then
      match bindFields req_q req_p req_h req_mq req_mh rest with
      | .ok fs => .ok (f :: fs)
      | .err e => .err e
      | .panicked m => .panicked m
    else
      match goSplitC '.' f.tag with
      | [c0, c1] =>
        match (match c0 with
               | "query" => some (req_q, req_mq)
               | "path" => some (req_p, ([] : MMap))
               | "header" => some (req_h, req_mh)
               | _ => none) with
        | none =>
          .err (.plain ("invalid param location \"" ++ c0 ++ "\" for field " ++ f.name))
        | some (sm, mm) =>
          match unmarshalField f.type f.value sm mm c1 with
          | .ok v =>
            match bindFields req_q req_p req_h req_mq req_mh rest with
            | .ok fs => .ok ({ f with value := v } :: fs)
            | .err e => .err e
            | .panicked m => .panicked m
          | .err e => .err e
          | .panicked m => .panicked m
      | _ => .err (.plain ("invalid lambda tag for field " ++ f.name))

/-- events.APIGatewayProxyRequest as the decoder reads it. -/
structure APIGatewayProxyRequest where
  QueryStringParameters : SMap := []
  PathParameters : SMap := []
  Headers : SMap := []
  MultiValueQueryStringParameters : MMap := []
  MultiValueHeaders : MMap := []
  Body : String := ""
  IsBase64Encoded : Bool := false

/-- The unmarshal target as unmarshalEvent's reflection probes classify
it: not a usable pointer (a non-pointer value or a nil pointer), a
non-nil pointer to a non-struct, or a non-nil pointer to a struct with
the given fields. -/
inductive Target
  | notPointer
  | ptrNonStruct
  | ptrStruct (r : List Field)

def Target.isPtr : Target → Bool
  | .notPointer => false
  | _ => true

/-- unmarshalEvent from src/decoder.go lines 65-118: a target that is not
a non-nil pointer is the invalid-target error (a plain errors.New value);
on a non-nil pointer to a non-struct the reflect NumField call panics;
otherwise the fields are bound in declaration order. -/
def unmarshalEvent (req : APIGatewayProxyRequest) (target : Target) :
    Outcome Target :=
  match target with
  | .notPointer => .err (.plain "invalid unmarshal target, must be pointer to struct")
  | .ptrNonStruct => .panicked "reflect: NumField of non-struct type"
  | .ptrStruct r =>
    match bindFields req.QueryStringParameters req.PathParameters req.Headers
        req.MultiValueQueryStringParameters req.MultiValueHeaders r with
    | .ok fs => .ok (.ptrStruct fs)
    | .err e => .err e
    | .panicked m => .panicked m

/-- unmarshalBody from src/decoder.go lines 120-143: a base64-flagged body
is decoded first, a decode failure returning immediately as a plain
wrapped error; the (decoded) bytes then go through json.Unmarshal, whose
failure is wrapped as an HTTPError with StatusBadRequest.  The JSON bulk
write into the record on success is not modelled: no claim observes
body-written fields, only the error paths. -/
def unmarshalBody (req : APIGatewayProxyRequest) (targetIsPtr : Bool) :
    Option GoError :=
  if req.IsBase64Encoded then
    match base64DecodeString req.Body with
    | .error msg => some (.plain ("failed decoding body: " ++ msg))
    | .ok bytes =>
      match jsonUnmarshalErr bytes targetIsPtr with
      | some m => some (.http ⟨statusBadRequest, "invalid request body: " ++ m⟩)
      | none => none
  else
    match jsonUnmarshalErr (strBytes req.Body) targetIsPtr with
    | some m => some (.http ⟨statusBadRequest, "invalid request body: " ++ m⟩)
    | none => none

/-- UnmarshalRequest from src/decoder.go lines 50-63: the body pass runs
first when requested and its error aborts the call; then the annotated
fields are bound from the request maps. -/
def UnmarshalRequest (req : APIGatewayProxyRequest) (body : Bool)
    (target : Target) : Outcome Target :=
  if body then
    match unmarshalBody req target.isPtr with
    | some e => .err e
    | none => unmarshalEvent req target
  else unmarshalEvent req target

/-- The scalar (non-optional, non-sequence) field kinds of the spec. -/
def isScalarKind : GoType → Bool
  | .string => true
  | .int _ => true
  | .uint _ => true
  | .float _ => true
  | .bool => true
  | _ => false

/- ########################  Theorems  ######################## -/

/-- SetInt of the parse result 0 stores 0 at every width. -/
theorem wrapInt_zero (w : IntWidth) : wrapInt w 0 = 0 := by
  cases w <;> rfl

/-- SetUint of the parse result 0 stores 0 at every width. -/
theorem wrapUint_zero (w : IntWidth) : wrapUint w 0 = 0 := by
  cases w <;> rfl

/-- A successful element loop yields exactly one converted value per raw
text value. -/
theorem bindElems_ok_length (g : GoValue → SMap → MMap → String → Outcome GoValue)
    (z : GoValue) :
    ∀ strs vs, bindElems g z strs = .ok vs → vs.length = strs.length := by
  intro strs
  induction strs with
  | nil =>
    intro vs h
    simp only [bindElems] at h
    cases h
    rfl
  | cons s rest ih =>
    intro vs h
    simp only [bindElems] at h
    cases hg : g z [("param", s)] [] "param" <;> rw [hg] at h
    case ok v =>
      cases hrest : bindElems g z rest <;> rw [hrest] at h
      case ok vs' =>
        cases h
        simp [ih vs' hrest]
      case err e => cases h
      case panicked m => cases h
    case err e => cases h
    case panicked m => cases h

/-- In a successful element loop, the i-th output value is the conversion
of the i-th raw text value, through the binder applied to a fresh
singleton map under the key "param". -/
theorem bindElems_ok_get (g : GoValue → SMap → MMap → String → Outcome GoValue)
    (z : GoValue) :
    ∀ strs vs, bindElems g z strs = .ok vs →
      ∀ i (h1 : i < strs.length) (h2 : i < vs.length),
        g z [("param", strs.get ⟨i, h1⟩)] [] "param" = .ok (vs.get ⟨i, h2⟩) := by
  intro strs
  induction strs with
  | nil =>
    intro vs h i h1 h2
    exact absurd h1 (by simp)
  | cons s rest ih =>
    intro vs h i h1 h2
    simp only [bindElems] at h
    cases hg : g z [("param", s)] [] "param" <;> rw [hg] at h
    case ok v =>
      cases hrest : bindElems g z rest <;> rw [hrest] at h
      case ok vs' =>
        cases h
        cases i with
        | zero => exact hg
        | succ j =>
          exact ih vs' hrest j (Nat.lt_of_succ_lt_succ h1) (Nat.lt_of_succ_lt_succ h2)
      case err e => cases h
      case panicked m => cases h
    case err e => cases h
    case panicked m => cases h

/-- A failing element loop fails with the error of some raw text value's
own conversion (fail-fast, no partial result). -/
theorem bindElems_err (g : GoValue → SMap → MMap → String → Outcome GoValue)
    (z : GoValue) :
    ∀ strs e, bindElems g z strs = .err e →
      ∃ k, ∃ hk : k < strs.length,
        g z [("param", strs.get ⟨k, hk⟩)] [] "param" = .err e := by
  intro strs
  induction strs with
  | nil =>
    intro e h
    simp only [bindElems] at h
    cases h
  | cons s rest ih =>
    intro e h
    simp only [bindElems] at h
    cases hg : g z [("param", s)] [] "param" <;> rw [hg] at h
    case ok v =>
      cases hrest : bindElems g z rest <;> rw [hrest] at h
      case ok vs' => cases h
      case err e' =>
        cases h
        obtain ⟨k, hk, hke⟩ := ih e hrest
        exact ⟨k + 1, Nat.succ_lt_succ hk, hke⟩
      case panicked m => cases h
    case err e' =>
      cases h
      exact ⟨0, Nat.succ_pos _, hg⟩
    case panicked m => cases h

/-- C1: the claim says a boolean field binds true exactly when the
lower-cased raw text is one of "1", "true", "on", "enabled", as the
decoder's own doc comment (src/decoder.go lines 35-37) also states.  The
regular expression `^1|true|on|enabled$` is anchored per-alternative, so
MatchString also accepts any text that merely starts with "1", contains
"true" or "on", or ends with "enabled": the raw text "None" (lower-cased
"none", which is none of the four tokens) binds the field to true.  The
code contradicts its own documentation: code_bug. -/
theorem boolField_unanchored_regex_code_bug :
    unmarshalField .bool (.bool false) [("show_hidden", "None")] [] "show_hidden"
      = .ok (.bool true)
    ∧ ("none" ≠ "1" ∧ "none" ≠ "true" ∧ "none" ≠ "on" ∧ "none" ≠ "enabled") :=
  ⟨rfl, by decide⟩

/-- C2 counterexample: the claim says an annotation with an empty key
component such as "query." is rejected with the invalid-annotation error.
It is not rejected at all: "query." splits into two components (the
second empty), passes the length check, and the field binds the absent
key "" to the zero string without any error. -/
theorem annotationEmptyKey_not_rejected :
    bindFields [("q", "x")] [] [] [] [] [⟨"F", "query.", .string, .str "seed"⟩]
      = .ok [⟨"F", "query.", .string, .str ""⟩] := rfl

/-- C2 amended: annotation parsing fails with the invalid-tag error
exactly when splitting the annotation on '.' yields a number of
components different from two; components are not checked for emptiness:
"query." (empty key) binds normally against the absent key "", and ".id"
(empty source kind) fails, but with the invalid-param-location error of
the source-kind dispatch, not the invalid-annotation error. -/
theorem annotationSplit_amended :
    (∀ t : String, t ≠ "" → (goSplitC '.' t).length ≠ 2 →
      bindFields [] [] [] [] [] [⟨"F", t, .string, .str ""⟩]
        = .err (.plain "invalid lambda tag for field F"))
    ∧ bindFields [] [] [] [] [] [⟨"F", "query.", .string, .str "s"⟩]
        = .ok [⟨"F", "query.", .string, .str ""⟩]
    ∧ bindFields [] [] [] [] [] [⟨"F", ".id", .string, .str ""⟩]
        = .err (.plain ("invalid param location \"\" for field F")) := by
  refine ⟨?_, rfl, rfl⟩
  intro t ht h2
  simp only [bindFields]
  rw [if_neg ht]
  rcases hs : goSplitC '.' t with _ | ⟨a, _ | ⟨b, _ | ⟨c, l⟩⟩⟩
  · rfl
  · rfl
  · exact absurd (by rw [hs]; rfl) h2
  · rfl

/-- Witness for the amended C2 statement at the concrete tag "a.b.c". -/
theorem annotationSplit_amended_witness :
    bindFields [] [] [] [] [] [⟨"F", "a.b.c", .string, .str ""⟩]
      = .err (.plain "invalid lambda tag for field F") :=
  annotationSplit_amended.1 "a.b.c" (by decide) (by decide)

/-- C3: the claim says a present optional integer field parses its text
as a base-10 integer (failing only on malformed text) — the spec's
"delegates to Scalar Converter".  The code never parses: for a pointer
field whose element kind is Int, Int32, Int64, Float32 or Float64 it
executes reflect.ValueOf(&val).Convert(typeField), converting a *string
to the field's pointer type, which Go's conversion rules reject, so the
call panics on EVERY present value — even the well-formed "5", which
strconvParseInt64 accepts.  The enumeration of integer and float kinds in
that case shows the conversion was intended to handle them, so the claim
is the intent and the code a slip: code_bug.  The absent-key half of the
claim does hold: the field is left unset with no error. -/
theorem optionalInt_present_convert_panics :
    unmarshalField (.ptr (.int .w64)) (.ptr none) [("n", "5")] [] "n"
      = .panicked convertPanicMsg
    ∧ unmarshalField (.ptr (.int .w64)) (.ptr none) [] [] "n" = .ok (.ptr none)
    ∧ strconvParseInt64 "5" = some 5 :=
  ⟨rfl, rfl, by decide⟩

/-- C4 counterexample: the claim says a sequence-typed field annotated
with the path source kind fails with an UnknownSourceKind-class
configuration error.  It does not fail: path is a recognized source kind,
its multi-valued map is simply nil, the slice branch finds the key absent
and returns without error, leaving the field untouched. -/
theorem sliceFieldPathAnnotation_no_error :
    bindFields [] [("tags", "x")] [] [] []
        [⟨"Tags", "path.tags", .slice .string, .slice []⟩]
      = .ok [⟨"Tags", "path.tags", .slice .string, .slice []⟩] := rfl

/-- C4 amended: a sequence-typed field annotated with the path source
kind is silently skipped: path has no multi-valued map, so for every
request, element type and prior value the field is left unmodified and
binding succeeds. -/
theorem sliceFieldPathAnnotation_skipped (q p h : SMap) (mq mh : MMap)
    (elem : GoType) (v : GoValue) :
    bindFields q p h mq mh [⟨"Tags", "path.k", .slice elem, v⟩]
      = .ok [⟨"Tags", "path.k", .slice elem, v⟩] := rfl

/-- C5 counterexample: the claim says a failing sequence element reports
the same identifier a scalar field with that annotation would report.
With annotation "query.sizes" and the malformed element "abc", the slice
field's error message names the literal placeholder "param", while the
scalar field with the same annotation names "sizes". -/
theorem sliceElemError_names_param_not_key :
    bindFields [("sizes", "abc")] [] [] [("sizes", ["abc"])] []
        [⟨"Sizes", "query.sizes", .slice (.int .w64), .slice []⟩]
      = .err (.http ⟨statusBadRequest, "param must be a valid integer"⟩)
    ∧ bindFields [("sizes", "abc")] [] [] [] []
        [⟨"Size", "query.sizes", .int .w64, .int 0⟩]
      = .err (.http ⟨statusBadRequest, "sizes must be a valid integer"⟩)
    ∧ "param must be a valid integer" ≠ "sizes must be a valid integer" :=
  ⟨rfl, rfl, by decide⟩

/-- C5 amended: a failing sequence element surfaces the same error kind
as the scalar conversion (an HTTPError with the bad-request status and
the same format), but its message names the hardcoded placeholder key
"param" — the key of the singleton map the element loop builds — for
every field key. -/
theorem sliceElemError_amended (k s : String)
    (hparse : strconvParseInt64 s = none) :
    unmarshalField (.slice (.int .w64)) (.slice []) [] [(k, [s])] k
      = .err (.http ⟨statusBadRequest, "param must be a valid integer"⟩) := by
  simp [unmarshalField, bindElems, zeroValue, mapGet2, lookupS, lookupM,
    parseInt64Param, hparse]

/-- Witness for the amended C5 statement at the field key "sizes" and the
malformed element "abc". -/
theorem sliceElemError_amended_witness :
    unmarshalField (.slice (.int .w64)) (.slice []) [] [("sizes", ["abc"])] "sizes"
      = .err (.http ⟨statusBadRequest, "param must be a valid integer"⟩) :=
  sliceElemError_amended "sizes" "abc" rfl

/-- C6 counterexample: the claim says malformed transport-encoded bytes
fail with a PayloadDecodeError carrying the bad-request classification,
the structured error exposing one of the two status classifications.  On
the malformed base64 body "!!!" the bind fails with a plain error built
by fmt.Errorf — the GoError.plain constructor, which by definition
carries no status code at all (only GoError.http does), so the returned
error carries neither classification. -/
theorem base64Malformed_unclassified :
    UnmarshalRequest { Body := "!!!", IsBase64Encoded := true } true (.ptrStruct [])
      = .err (.plain "failed decoding body: illegal base64 data at input byte 0") := rfl

/-- C6 amended: when body-binding is requested and the payload is flagged
as transport-encoded but the bytes are malformed base64, the bind fails
with a plain, unclassified error wrapping the decode failure ("failed
decoding body: ..."); only a JSON parse failure is returned as the
structured bad-request error. -/
theorem base64Malformed_amended (req : APIGatewayProxyRequest) (target : Target)
    (msg : String) (hb : req.IsBase64Encoded = true)
    (hdec : base64DecodeString req.Body = .error msg) :
    UnmarshalRequest req true target
      = .err (.plain ("failed decoding body: " ++ msg)) := by
  simp [UnmarshalRequest, unmarshalBody, hb, hdec]

/-- Witness for the amended C6 statement on the malformed body "!!!". -/
theorem base64Malformed_amended_witness :
    UnmarshalRequest { Body := "!!!", IsBase64Encoded := true } true .notPointer
      = .err (.plain ("failed decoding body: " ++ "illegal base64 data at input byte 0")) :=
  base64Malformed_amended _ _ _ rfl rfl

/-- C7 counterexample: the claim says a destination that is not a non-nil
pointer to a struct fails with an InvalidTarget error classified as an
internal/configuration error regardless of whether body-binding was
requested.  With body-binding requested, json.Unmarshal rejects the
invalid target first and the bind returns the body binder's HTTPError
with the bad-request status instead. -/
theorem invalidTarget_with_body_bad_request :
    UnmarshalRequest { Body := "[]" } true .notPointer
      = .err (.http ⟨statusBadRequest, "invalid request body: " ++ jsonInvalidTargetMsg⟩) := rfl

/-- C7 amended: when body-binding is not requested, a destination that is
not a non-nil pointer fails with the invalid-target error, which is a
plain errors.New value carrying no status classification (in particular
not the bad-request one); when body-binding is requested (and the body is
not base64-flagged), the JSON decode fails first on such a target and a
bad-request-classified body error is returned instead.  The source checks
only that the target is a non-nil pointer, not that it points to a
struct: a pointer to a non-struct passes the check and the field loop's
reflection panics. -/
theorem invalidTarget_amended (req : APIGatewayProxyRequest) :
    UnmarshalRequest req false .notPointer
      = .err (.plain "invalid unmarshal target, must be pointer to struct")
    ∧ (∀ m : String,
        GoError.plain "invalid unmarshal target, must be pointer to struct"
          ≠ .http ⟨statusBadRequest, m⟩)
    ∧ (req.IsBase64Encoded = false →
        ∃ m, UnmarshalRequest req true .notPointer
          = .err (.http ⟨statusBadRequest, m⟩))
    ∧ unmarshalEvent req .ptrNonStruct
      = .panicked "reflect: NumField of non-struct type" := by
  refine ⟨rfl, ?_, ?_, rfl⟩
  · intro m h
    cases h
  intro hb
  by_cases hj : jsonSyntaxOk (strBytes req.Body)
  · exact ⟨"invalid request body: " ++ jsonInvalidTargetMsg, by
      simp [UnmarshalRequest, unmarshalBody, hb, jsonUnmarshalErr, hj, Target.isPtr]⟩
  · exact ⟨"invalid request body: " ++ jsonSyntaxErrMsg, by
      simp [UnmarshalRequest, unmarshalBody, hb, jsonUnmarshalErr, hj, Target.isPtr]⟩

/-- Witness for the amended C7 statement at a concrete request. -/
theorem invalidTarget_amended_witness :
    UnmarshalRequest { Body := "x" } false .notPointer
      = .err (.plain "invalid unmarshal target, must be pointer to struct")
    ∧ ∃ m, UnmarshalRequest { Body := "x" } true .notPointer
      = .err (.http ⟨statusBadRequest, m⟩) :=
  ⟨(invalidTarget_amended _).1, (invalidTarget_amended _).2.2.1 rfl⟩

/-- C8: for every non-optional scalar field — string, any signed or
unsigned integer width, either float width, or bool — binding with the
field's key absent from its single-valued map succeeds, stores the
type's zero value, and never returns an error (the parse helpers return
the zero value without parsing when the presence flag is false, and the
boolean regular expression does not match the empty string). -/
theorem scalarAbsent_zero_no_error (t : GoType) (v : GoValue) (params : SMap)
    (multi : MMap) (key : String) (hk : isScalarKind t = true)
    (habs : lookupS params key = none) :
    unmarshalField t v params multi key = .ok (zeroValue t) := by
  have hget : mapGet2 params key = ("", false) := by simp [mapGet2, habs]
  cases t with
  | string => simp [unmarshalField, hget, zeroValue]
  | int w =>
    simp [unmarshalField, hget, parseInt64Param, zeroValue, wrapInt_zero]
  | uint w =>
    simp [unmarshalField, hget, parseUint64Param, zeroValue, wrapUint_zero]
  | float w =>
    simp [unmarshalField, hget, parseFloat64Param, zeroValue]
  | bool => simp [unmarshalField, hget, zeroValue]; rfl
  | ptr e => simp [isScalarKind] at hk
  | slice e => simp [isScalarKind] at hk
  | timeStruct => simp [isScalarKind] at hk
  | otherStruct => simp [isScalarKind] at hk

/-- Witness for C8 at a concrete unsigned field whose key "b" is absent
(the map holds only "a"): the prior value 9 is overwritten with zero. -/
theorem scalarAbsent_zero_witness :
    unmarshalField (.uint .w16) (.uint 9) [("a", "7")] [] "b"
      = .ok (zeroValue (.uint .w16)) :=
  scalarAbsent_zero_no_error _ _ _ _ _ rfl rfl

/-- C9: for a sequence-typed field, (i) an absent key leaves the
destination exactly as it was, with no error; (ii) on success with a
present key the output has exactly the source list's length and its i-th
element is the scalar conversion of the i-th raw text value (the element
binder run on a present singleton input), order preserved; (iii) on
failure the error is some element's own conversion error and no partial
sequence is produced (the error outcome carries no value, so the caller
leaves the field untouched). -/
theorem sequenceBinding_order_length (elem : GoType) (v : GoValue)
    (params : SMap) (multi : MMap) (key : String) :
    (lookupM multi key = none →
      unmarshalField (.slice elem) v params multi key = .ok v)
    ∧ (∀ strs vs, lookupM multi key = some strs →
        unmarshalField (.slice elem) v params multi key = .ok (.slice vs) →
        vs.length = strs.length ∧
        ∀ i (h1 : i < strs.length) (h2 : i < vs.length),
          unmarshalField elem (zeroValue elem) [("param", strs.get ⟨i, h1⟩)] [] "param"
            = .ok (vs.get ⟨i, h2⟩))
    ∧ (∀ strs e, lookupM multi key = some strs →
        unmarshalField (.slice elem) v params multi key = .err e →
        ∃ k, ∃ hk : k < strs.length,
          unmarshalField elem (zeroValue elem) [("param", strs.get ⟨k, hk⟩)] [] "param"
            = .err e) := by
  refine ⟨fun habs => by simp [unmarshalField, habs], ?_, ?_⟩
  · intro strs vs hpres hbind
    simp only [unmarshalField, hpres] at hbind
    cases hb : bindElems (unmarshalField elem) (zeroValue elem) strs <;>
      rw [hb] at hbind
    case ok vs' =>
      cases hbind
      exact ⟨bindElems_ok_length _ _ _ _ hb, fun i h1 h2 =>
        bindElems_ok_get _ _ _ _ hb i h1 h2⟩
    case err e => cases hbind
    case panicked m => cases hbind
  · intro strs e hpres hbind
    simp only [unmarshalField, hpres] at hbind
    cases hb : bindElems (unmarshalField elem) (zeroValue elem) strs <;>
      rw [hb] at hbind
    case ok vs' => cases hbind
    case err e' =>
      cases hbind
      exact bindElems_err _ _ _ _ hb
    case panicked m => cases hbind

/-- Witness for C9 at a concrete field: an absent key leaves the prior
sequence untouched. -/
theorem sequenceBinding_witness :
    unmarshalField (.slice .string) (.slice [.str "z"]) [] [] "t"
      = .ok (.slice [.str "z"]) :=
  (sequenceBinding_order_length .string (.slice [.str "z"]) [] [] "t").1 rfl

/-- C10 counterexample: the claim says that for a narrow integer field a
present value that parses as int64 but overflows the field's width makes
the reflective SetInt write panic.  It does not panic: reflect's SetInt
stores the Go conversion int8(x), which truncates, so the text "300"
(which parses as 300, above int8's maximum 127) binds an int8 field to
44 = 300 - 256 with no error and no panic. -/
theorem narrowIntOverflow_truncates :
    unmarshalField (.int .w8) (.int 0) [("n", "300")] [] "n" = .ok (.int 44)
    ∧ strconvParseInt64 "300" = some 300 := ⟨rfl, by decide⟩

/-- C10 amended: for a narrow signed or unsigned integer field, a present
value that parses as a 64-bit integer never returns an error and never
panics: reflect's SetInt/SetUint silently truncate the 64-bit value to
the field's width (two's complement), and binding succeeds with the
wrapped value. -/
theorem narrowIntOverflow_amended (w : IntWidth) (v : GoValue) (params : SMap)
    (multi : MMap) (key s : String) (n : Int)
    (hp : lookupS params key = some s) (hn : strconvParseInt64 s = some n) :
    unmarshalField (.int w) v params multi key = .ok (.int (wrapInt w n))
    ∧ ∀ (u : IntWidth) (m : Nat), strconvParseUint64 s = some m →
        unmarshalField (.uint u) v params multi key = .ok (.uint (wrapUint u m)) := by
  have hget : mapGet2 params key = (s, true) := by simp [mapGet2, hp]
  refine ⟨by simp [unmarshalField, hget, parseInt64Param, hn], ?_⟩
  intro u m hm
  simp [unmarshalField, hget, parseUint64Param, hm]

/-- Witness for the amended C10 statement: the out-of-range text "200"
binds an int8 field to wrapInt .w8 200 = -56 with no error. -/
theorem narrowIntOverflow_amended_witness :
    unmarshalField (.int .w8) (.int 0) [("x", "200")] [] "x"
      = .ok (.int (wrapInt .w8 200)) :=
  (narrowIntOverflow_amended .w8 (.int 0) [("x", "200")] [] "x" "200" 200
    rfl (by decide)).1

end Lmd
